import Mathlib

/-!
Shallow embedding of the market-data service in
`src/backend/src/services/massiveApi.ts` of the commodity-tracker repository.

Modelling conventions:
* JS strings are lists of UTF-16 code units (`List Nat`).
* JSON numbers are exact rationals (`ℚ`): JSON cannot encode `NaN` or
  `Infinity`, so every number delivered by the upstream API is finite.
* Timestamps are integers (milliseconds since the epoch); `Date.now()` is
  passed in as an explicit `now` parameter.
* `null`/`undefined` are `Option.none`; JS truthiness on numbers (falsy
  exactly on `0`) and on strings (falsy exactly on `""`) is modelled by
  explicit helpers.
* Network effects are modelled by passing the decoded upstream responses
  as explicit arguments.
-/

namespace MassiveApi

/-- JS string as a list of UTF-16 code units. -/
abbrev JSStr := List Nat

/-- Number-valued JS truthiness: a number is truthy iff it is nonzero
(`NaN` cannot appear in decoded JSON); an absent value is falsy. -/
def truthyNum : Option ℚ → Bool
  | some q => decide (q ≠ 0)
  | none => false

/-- String-valued JS `a || b` fallback: an empty or absent string falls
back to the default. -/
def jsOrStr (o : Option JSStr) (d : JSStr) : JSStr :=
  match o with
  | some s => if s = [] then d else s
  | none => d

/-- `calculatePercentChange` (massiveApi.ts line 60): zero-baseline guard,
otherwise the percent-change formula. -/
def calculatePercentChange (current previous : ℚ) : ℚ :=
  if previous = 0 then 0 else (current - previous) / previous * 100

/-- One historical aggregate bar; the five fields the service reads
(`o`pen, `h`igh, `c`lose, `v`olume, `t`imestamp in ms). -/
structure Bar where
  o : ℚ
  h : ℚ
  c : ℚ
  v : ℚ
  t : ℤ
deriving DecidableEq, Repr

/-- JS `Array.prototype.slice(-p)`: for `p = 0` this is `slice(0)`
(the whole array), otherwise the last `p` elements. -/
def sliceLast {α : Type} (l : List α) (p : Nat) : List α :=
  if p = 0 then l else l.drop (l.length - p)

/-- `calculateSMA` (massiveApi.ts line 160): `null` when fewer than
`period` bars, else the sum of the last `period` closes divided by
`period`. -/
def calculateSMA (bars : List Bar) (period : Nat) : Option ℚ :=
  if bars.length < period then none
  else
    let recentBars := sliceLast bars period
    let sum := recentBars.foldl (fun acc bar => acc + bar.c) 0
    some (sum / period)

/-- The gains/losses accumulation loop of `calculateRSI`
(massiveApi.ts lines 172-182), over the list of closes: each
close-to-close change adds to the gains when positive and its absolute
value to the losses otherwise. -/
def gainLossAux : List ℚ → ℚ × ℚ
  | c1 :: c2 :: rest =>
    let gl := gainLossAux (c2 :: rest)
    let change := c2 - c1
    if change > 0 then (gl.1 + change, gl.2) else (gl.1, gl.2 + |change|)
  | _ => (0, 0)

/-- `calculateRSI` (massiveApi.ts line 168): `null` when fewer than
`period + 1` bars; otherwise `100` when the average loss is zero, else
`100 - 100 / (1 + avgGain / avgLoss)`. -/
def calculateRSI (bars : List Bar) (period : Nat := 14) : Option ℚ :=
  if bars.length < period + 1 then none
  else
    let recentBars := sliceLast bars (period + 1)
    let gl := gainLossAux (recentBars.map Bar.c)
    let avgGain := gl.1 / period
    let avgLoss := gl.2 / period
    if avgLoss = 0 then some 100
    else some (100 - 100 / (1 + avgGain / avgLoss))

/-- One cache entry: opaque payload (`any` in the source, hence a type
parameter) plus an absolute expiry timestamp. -/
structure CacheEntry (α : Type) where
  data : α
  expiry : ℤ
deriving DecidableEq, Repr

/-- The in-memory cache: a JS `Map` from string keys to entries, modelled
as an association list in insertion order with (invariantly) unique keys. -/
abbrev Cache (α : Type) := List (String × CacheEntry α)

/-- `CACHE_TTL` (massiveApi.ts line 7): one minute, in milliseconds. -/
def CACHE_TTL : ℤ := 60000

/-- `MAX_CACHE_SIZE` (massiveApi.ts line 8). -/
def MAX_CACHE_SIZE : Nat := 100

/-- JS `Map.set`: when the key is present, the value is replaced in place
(keeping the key's insertion position); otherwise the pair is appended. -/
def mapSet {α : Type} (c : Cache α) (k : String) (e : CacheEntry α) : Cache α :=
  match c with
  | [] => [(k, e)]
  | kv :: rest => if kv.1 = k then (k, e) :: rest else kv :: mapSet rest k e

/-- The key-collection loop of `setCache` (massiveApi.ts lines 77-82): scan
the entries in insertion order and mark a key for deletion when its entry
is already expired or when fewer than `need` keys have been marked so far.
`need` is `cache.size - MAX_CACHE_SIZE + 1`, fixed before the loop since
the map is not mutated while iterating. -/
def evictScan {α : Type} (need : Nat) (now : ℤ) :
    List String → List (String × CacheEntry α) → List String
  | acc, [] => acc
  | acc, kv :: rest =>
    evictScan need now
      (if kv.2.expiry < now ∨ acc.length < need then acc ++ [kv.1] else acc) rest

/-- The keys `setCache` deletes when the cache is at capacity. -/
def evictKeys {α : Type} (c : Cache α) (now : ℤ) : List String :=
  evictScan (c.length - MAX_CACHE_SIZE + 1) now [] c

/-- `setCache` (massiveApi.ts line 74): when the cache is at or above
`MAX_CACHE_SIZE`, delete the marked keys, then insert the new entry with
expiry `now + CACHE_TTL`. -/
def setCache {α : Type} (c : Cache α) (k : String) (d : α) (now : ℤ) : Cache α :=
  let c' :=
    if MAX_CACHE_SIZE ≤ c.length then
      let keysToDelete := evictKeys c now
      c.filter (fun kv => !decide (kv.1 ∈ keysToDelete))
    else c
  mapSet c' k ⟨d, now + CACHE_TTL⟩

/-- One recorded call to `setCache`, with the wall-clock time at which it
ran. -/
structure PutOp (α : Type) where
  key : String
  data : α
  now : ℤ

/-- Replay a sequence of `setCache` calls against a starting cache state. -/
def runPuts {α : Type} (c : Cache α) (ops : List (PutOp α)) : Cache α :=
  ops.foldl (fun c op => setCache c op.key op.data op.now) c

/-- The character class `[A-Za-z0-9.\-:^]` of `sanitizeTicker`
(massiveApi.ts line 91), on UTF-16 code units. -/
def isAllowedTickerChar (n : Nat) : Bool :=
  decide (65 ≤ n ∧ n ≤ 90) || decide (97 ≤ n ∧ n ≤ 122) ||
  decide (48 ≤ n ∧ n ≤ 57) || decide (n = 46) || decide (n = 45) ||
  decide (n = 58) || decide (n = 94)

/-- JS `toUpperCase` on a single code unit, restricted to ASCII (every
character `sanitizeTicker` keeps is ASCII). -/
def jsToUpperChar (n : Nat) : Nat :=
  if 97 ≤ n ∧ n ≤ 122 then n - 32 else n

/-- `sanitizeTicker` (massiveApi.ts line 89): strip disallowed characters,
truncate to 20, uppercase. -/
def sanitizeTicker (ticker : JSStr) : JSStr :=
  ((ticker.filter isAllowedTickerChar).take 20).map jsToUpperChar

/-- JS `String.prototype.replace` with a string pattern: replace the first
occurrence of `pat` (for an empty pattern, JS prepends the replacement). -/
def replaceFirst (pat repl : JSStr) : JSStr → JSStr
  | [] => if pat.isPrefixOf ([] : JSStr) then repl else []
  | ch :: rest =>
    if pat.isPrefixOf (ch :: rest) then repl ++ (ch :: rest).drop pat.length
    else ch :: replaceFirst pat repl rest

/-- The code units of `"-USD"`. -/
def dashUSD : JSStr := [45, 85, 83, 68]

/-- The code units of `"USD"`. -/
def usdStr : JSStr := [85, 83, 68]

/-- The vendor-symbol translation in `getAssetQuote` (massiveApi.ts lines
379-382): a ticker ending in `-USD` is rewritten to the crypto form
`X:...USD` (`X` = 88, `:` = 58). -/
def massiveTickerOf (normalizedTicker : JSStr) : JSStr :=
  if dashUSD.isSuffixOf normalizedTicker then
    [88, 58] ++ replaceFirst dashUSD usdStr normalizedTicker
  else normalizedTicker

/-- The two snapshot fields `getAssetQuote` reads (`snapshot.day?.c` and
`snapshot.prevDay?.c`), flattened through optional chaining. -/
structure Snapshot where
  day_c : Option ℚ
  prevDay_c : Option ℚ
deriving DecidableEq, Repr

/-- The two reference-details fields `getAssetQuote` reads. -/
structure Details where
  name : Option JSStr
  market_cap : Option ℚ
deriving DecidableEq, Repr

/-- The three decoded upstream responses for one vendor symbol:
`getTickerSnapshot` (`data?.ticker || null`), `getTickerDetails`
(`data?.results || null`) and `getHistoricalBars` (`data?.results || []`). -/
structure Upstream where
  snapshot : Option Snapshot
  details : Option Details
  historicalBars : List Bar

/-- The whole upstream world: responses keyed by the requested symbol. -/
abbrev Env := JSStr → Upstream

inductive SignalType where
  | strong_buy
  | buy
  | hold
  | sell
  | strong_sell
deriving DecidableEq, Repr

structure TradingSignal where
  signal : SignalType
  score : ℤ
  reasons : List String
deriving DecidableEq, Repr

/-- The `'above' | 'below'` tag of the `priceVsSmaN` fields. -/
inductive PriceVsSma where
  | above
  | below
deriving DecidableEq, Repr

structure AssetQuote where
  ticker : JSStr
  name : JSStr
  price : ℚ
  marketCap : Option ℚ
  priceToSales : Option ℚ
  priceToEarnings : Option ℚ
  ytdChange : Option ℚ
  oneYearChange : Option ℚ
  fiftyTwoWeekHigh : Option ℚ
  deltaFrom52WeekHigh : Option ℚ
  historicalPrices : List ℚ
  sma20 : Option ℚ
  sma50 : Option ℚ
  sma200 : Option ℚ
  priceVsSma20 : Option PriceVsSma
  priceVsSma50 : Option PriceVsSma
  priceVsSma200 : Option PriceVsSma
  oneMonthChange : Option ℚ
  shortTermSignal : Option TradingSignal
  longTermSignal : Option TradingSignal
  rsi : Option ℚ
deriving DecidableEq, Repr

/-- `calculateShortTermSignal` (massiveApi.ts line 194). The in-ℚ division
`(price - sma20) / sma20` matches JS except at `sma20 = 0` (JS would give
an infinity), which only ever shifts a heuristic score. -/
def calculateShortTermSignal (price : ℚ)
    (sma20 sma50 rsi oneMonthChange deltaFrom52WeekHigh : Option ℚ)
    (bars : List Bar) : TradingSignal :=
  let s0 : ℤ := 0
  let r0 : List String := []
  -- Strategy 1: RSI (weight: 25%)
  let sr1 : ℤ × List String :=
    match rsi with
    | some r =>
      if r < 30 then (s0 + 25, r0 ++ ["RSI oversold (<30)"])
      else if r < 40 then (s0 + 15, r0 ++ ["RSI approaching oversold"])
      else if r > 70 then (s0 - 25, r0 ++ ["RSI overbought (>70)"])
      else if r > 60 then (s0 - 10, r0 ++ ["RSI approaching overbought"])
      else (s0, r0)
    | none => (s0, r0)
  -- Strategy 2: price vs SMA20 (weight: 20%)
  let sr2 : ℤ × List String :=
    match sma20 with
    | some m =>
      let pctFromSma20 := (price - m) / m * 100
      if pctFromSma20 > 5 then (sr1.1 - 15, sr1.2 ++ ["Price >5% above SMA20"])
      else if pctFromSma20 < -5 then
        (sr1.1 + 20, sr1.2 ++ ["Price >5% below SMA20 (potential bounce)"])
      else if pctFromSma20 > 0 then (sr1.1 + 5, sr1.2 ++ ["Price above SMA20"])
      else sr1
    | none => sr1
  -- Strategy 3: short-term momentum (weight: 20%)
  let sr3 : ℤ × List String :=
    if 5 ≤ bars.length then
      match bars.get? (bars.length - 5) with
      | some b =>
        let fiveDayChange := calculatePercentChange price b.c
        if fiveDayChange < -5 then (sr2.1 + 15, sr2.2 ++ ["5-day dip (potential rebound)"])
        else if fiveDayChange > 5 then (sr2.1 - 10, sr2.2 ++ ["5-day rally (potential pullback)"])
        else sr2
      | none => sr2
    else sr2
  -- Strategy 4: volume trend (weight: 15%)
  let sr4 : ℤ × List String :=
    if 10 ≤ bars.length then
      let recentVolume := ((sliceLast bars 5).foldl (fun sum b => sum + b.v) (0 : ℚ)) / 5
      let priorVolume :=
        (((bars.drop (bars.length - 10)).take 5).foldl (fun sum b => sum + b.v) (0 : ℚ)) / 5
      match bars.get? (bars.length - 1), bars.get? (bars.length - 2) with
      | some bLast, some bPrev =>
        if recentVolume > priorVolume * (3 / 2) ∧ bLast.c > bPrev.c then
          (sr3.1 + 15, sr3.2 ++ ["High volume buying"])
        else sr3
      | _, _ => sr3
    else sr3
  -- Strategy 5: support level proximity (weight: 20%)
  let sr5 : ℤ × List String :=
    match deltaFrom52WeekHigh with
    | some d =>
      if d < -30 then (sr4.1 + 15, sr4.2 ++ ["Near 52-week support"])
      else if d > -5 then (sr4.1 - 10, sr4.2 ++ ["Near 52-week high (resistance)"])
      else sr4
    | none => sr4
  let signal : SignalType :=
    if sr5.1 ≥ 40 then .strong_buy
    else if sr5.1 ≥ 15 then .buy
    else if sr5.1 ≤ -40 then .strong_sell
    else if sr5.1 ≤ -15 then .sell
    else .hold
  { signal := signal, score := sr5.1, reasons := sr5.2 }

/-- `calculateLongTermSignal` (massiveApi.ts line 283). -/
def calculateLongTermSignal (price : ℚ)
    (sma50 sma200 oneYearChange deltaFrom52WeekHigh marketCap : Option ℚ) : TradingSignal :=
  let s0 : ℤ := 0
  let r0 : List String := []
  -- Strategy 1: golden/death cross (weight: 30%)
  let sr1 : ℤ × List String :=
    match sma50, sma200 with
    | some a, some b =>
      if a > b then (s0 + 25, r0 ++ ["Golden cross (SMA50 > SMA200)"])
      else (s0 - 20, r0 ++ ["Death cross (SMA50 < SMA200)"])
    | _, _ => (s0, r0)
  -- Strategy 2: price vs SMA200 (weight: 25%)
  let sr2 : ℤ × List String :=
    match sma200 with
    | some m =>
      let pctFromSma200 := (price - m) / m * 100
      if pctFromSma200 > 0 ∧ pctFromSma200 < 20 then
        (sr1.1 + 20, sr1.2 ++ ["Price in uptrend above SMA200"])
      else if pctFromSma200 < -10 then
        (sr1.1 + 15, sr1.2 ++ ["Price well below SMA200 (value opportunity)"])
      else if pctFromSma200 > 40 then (sr1.1 - 15, sr1.2 ++ ["Price extended above SMA200"])
      else sr1
    | none => sr1
  -- Strategy 3: 52-week position (weight: 20%)
  let sr3 : ℤ × List String :=
    match deltaFrom52WeekHigh with
    | some d =>
      if d > -10 then (sr2.1 + 10, sr2.2 ++ ["Near 52-week highs (momentum)"])
      else if d < -40 then (sr2.1 + 15, sr2.2 ++ ["Significant discount from highs"])
      else if d < -20 ∧ d > -40 then (sr2.1 + 10, sr2.2 ++ ["Moderate pullback (entry opportunity)"])
      else sr2
    | none => sr2
  -- Strategy 4: long-term performance (weight: 15%)
  let sr4 : ℤ × List String :=
    match oneYearChange with
    | some y =>
      if y > 20 ∧ y < 100 then (sr3.1 + 15, sr3.2 ++ ["Strong 1-year performance"])
      else if y < -20 then (sr3.1 - 10, sr3.2 ++ ["Weak 1-year performance"])
      else if y > 100 then (sr3.1 - 5, sr3.2 ++ ["Extended gains (caution)"])
      else sr3
    | none => sr3
  -- Strategy 5: market cap consideration (weight: 10%)
  let sr5 : ℤ × List String :=
    match marketCap with
    | some mc =>
      if mc > 200 * 10 ^ 9 then (sr4.1 + 10, sr4.2 ++ ["Large cap (stability)"])
      else if mc > 10 * 10 ^ 9 then (sr4.1 + 5, sr4.2 ++ ["Mid cap"])
      else sr4
    | none => sr4
  let signal : SignalType :=
    if sr5.1 ≥ 40 then .strong_buy
    else if sr5.1 ≥ 15 then .buy
    else if sr5.1 ≤ -30 then .strong_sell
    else if sr5.1 ≤ -10 then .sell
    else .hold
  { signal := signal, score := sr5.1, reasons := sr5.2 }

/-- JS `Math.max(...xs)` over a nonempty spread (absent for the empty
list, where JS would give `-Infinity`; the caller guards on nonemptiness). -/
def listMax : List ℚ → Option ℚ
  | [] => none
  | x :: xs => some (xs.foldl max x)

/-- `getAssetQuote` (massiveApi.ts line 370). Network and clock are
explicit: `env` maps the requested vendor symbol to its three decoded
upstream responses, and `ytdStartMs`/`oneMonthAgoMs` are the two baseline
date thresholds (a bar's date-string comparison `barDate >= threshold` is
equivalent to comparing its ms timestamp against the threshold's
midnight). -/
def getAssetQuote (ticker : JSStr) (env : Env) (ytdStartMs oneMonthAgoMs : ℤ) :
    Option AssetQuote :=
  let normalizedTicker := sanitizeTicker ticker
  if normalizedTicker = [] then none
  else
    let massiveTicker := massiveTickerOf normalizedTicker
    let snapshot := (env massiveTicker).snapshot
    let details := (env massiveTicker).details
    let historicalBars := (env massiveTicker).historicalBars
    if snapshot = none ∧ details = none ∧ historicalBars = [] then none
    else
      let dayC := snapshot.bind Snapshot.day_c
      let prevDayC := snapshot.bind Snapshot.prevDay_c
      let currentPrice : ℚ :=
        if truthyNum dayC then dayC.getD 0
        else if truthyNum prevDayC then prevDayC.getD 0
        else
          match historicalBars.getLast? with
          | some b => b.c
          | none => 0
      if currentPrice = 0 then none
      else
        let fiftyTwoWeekHigh : Option ℚ :=
          if historicalBars.length > 0 then listMax (historicalBars.map Bar.h) else none
        let deltaFrom52WeekHigh : Option ℚ :=
          if truthyNum fiftyTwoWeekHigh then
            some (calculatePercentChange currentPrice (fiftyTwoWeekHigh.getD 0))
          else none
        let ytdChange : Option ℚ :=
          match historicalBars.find? (fun b => decide (ytdStartMs ≤ b.t)) with
          | some ytdBar => some (calculatePercentChange currentPrice ytdBar.o)
          | none => none
        let oneYearChange : Option ℚ :=
          match historicalBars with
          | b :: _ => some (calculatePercentChange currentPrice b.c)
          | [] => none
        let oneMonthChange : Option ℚ :=
          match historicalBars.find? (fun b => decide (oneMonthAgoMs ≤ b.t)) with
          | some oneMonthBar => some (calculatePercentChange currentPrice oneMonthBar.o)
          | none => none
        let historicalPrices := (sliceLast historicalBars 50).map Bar.c
        let sma20 := calculateSMA historicalBars 20
        let sma50 := calculateSMA historicalBars 50
        let sma200 := calculateSMA historicalBars 200
        let rsi := calculateRSI historicalBars
        let marketCap : Option ℚ :=
          if truthyNum (details.bind Details.market_cap) then details.bind Details.market_cap
          else none
        let shortTermSignal :=
          calculateShortTermSignal currentPrice sma20 sma50 rsi oneMonthChange
            deltaFrom52WeekHigh historicalBars
        let longTermSignal :=
          calculateLongTermSignal currentPrice sma50 sma200 oneYearChange
            deltaFrom52WeekHigh marketCap
        some {
          ticker := normalizedTicker
          name := jsOrStr (details.bind Details.name) normalizedTicker
          price := currentPrice
          marketCap := marketCap
          priceToSales := none
          priceToEarnings := none
          ytdChange := ytdChange
          oneYearChange := oneYearChange
          fiftyTwoWeekHigh := fiftyTwoWeekHigh
          deltaFrom52WeekHigh := deltaFrom52WeekHigh
          historicalPrices := historicalPrices
          sma20 := sma20
          sma50 := sma50
          sma200 := sma200
          priceVsSma20 :=
            if truthyNum sma20 then some (if currentPrice > sma20.getD 0 then .above else .below)
            else none
          priceVsSma50 :=
            if truthyNum sma50 then some (if currentPrice > sma50.getD 0 then .above else .below)
            else none
          priceVsSma200 :=
            if truthyNum sma200 then some (if currentPrice > sma200.getD 0 then .above else .below)
            else none
          oneMonthChange := oneMonthChange
          shortTermSignal := some shortTermSignal
          longTermSignal := some longTermSignal
          rsi := rsi
        }

/-- `getMultipleAssetQuotes` (massiveApi.ts line 493): look every ticker up
and keep the non-null results (TS narrows the filtered list, so dropping
the `none`s is `filterMap id`). Each `getAssetQuote` call absorbs its own
failures, so the batch as a whole is total. -/
def getMultipleAssetQuotes (tickers : List JSStr) (env : Env)
    (ytdStartMs oneMonthAgoMs : ℤ) : List AssetQuote :=
  (tickers.map (fun ticker => getAssetQuote ticker env ytdStartMs oneMonthAgoMs)).filterMap id

/-- JS regex `\s` on a code unit, modelled by the ASCII whitespace code
units and NBSP (the claims never exercise the more exotic Unicode
spaces). -/
def isJsWhitespace (n : Nat) : Bool :=
  decide (9 ≤ n ∧ n ≤ 13) || decide (n = 32) || decide (n = 160)

/-- The character class `[A-Za-z0-9\s.\-]` of the search-query sanitizer
(massiveApi.ts line 502). -/
def isSearchChar (n : Nat) : Bool :=
  decide (65 ≤ n ∧ n ≤ 90) || decide (97 ≤ n ∧ n ≤ 122) ||
  decide (48 ≤ n ∧ n ≤ 57) || isJsWhitespace n || decide (n = 46) || decide (n = 45)

/-- JS `String.prototype.trim`. -/
def jsTrim (s : JSStr) : JSStr :=
  ((s.dropWhile isJsWhitespace).reverse.dropWhile isJsWhitespace).reverse

/-- The search-query sanitization of `searchAssets` (massiveApi.ts line
502): strip disallowed characters, truncate to 50, trim. -/
def sanitizeSearchQuery (query : JSStr) : JSStr :=
  jsTrim ((query.filter isSearchChar).take 50)

/-- The result shape of `searchAssets`. -/
structure SearchResult where
  symbol : JSStr
  name : JSStr
  type : JSStr
deriving DecidableEq, Repr

/-- One item of the upstream ticker-search response, with the fields
`searchAssets` reads. -/
structure SearchItem where
  ticker : JSStr
  name : Option JSStr
  type : Option JSStr
  market : Option JSStr
deriving DecidableEq, Repr

/-- The decoded upstream ticker-search response body. -/
structure SearchData where
  results : Option (List SearchItem)
deriving DecidableEq, Repr

/-- The code units of `"stock"`. -/
def stockStr : JSStr := [115, 116, 111, 99, 107]

/-- The query parameters of the request URL `searchAssets` builds
(massiveApi.ts line 508): the sanitized search text, `active=true`,
`limit=10`; `none` when the sanitized query is empty and no request is
issued. -/
structure SearchRequest where
  search : JSStr
  active : Bool
  limit : Nat
deriving DecidableEq, Repr

/-- The upstream request `searchAssets` issues for a given raw query. -/
def searchRequest (query : JSStr) : Option SearchRequest :=
  let sanitizedQuery := sanitizeSearchQuery query
  if sanitizedQuery = [] then none
  else some { search := sanitizedQuery, active := true, limit := 10 }

/-- `searchAssets` (massiveApi.ts line 499), with the decoded upstream
response passed explicitly (`none` for a failed fetch). -/
def searchAssets (query : JSStr) (upstream : Option SearchData) : List SearchResult :=
  let sanitizedQuery := sanitizeSearchQuery query
  if sanitizedQuery = [] then []
  else
    match upstream with
    | none => []
    | some data =>
      match data.results with
      | none => []
      | some results =>
        results.map (fun item =>
          { symbol := item.ticker
            name := jsOrStr item.name item.ticker
            type := jsOrStr item.type (jsOrStr item.market stockStr) })

/-- The positive close-to-close deltas of a chronological list of closes,
summed (the "gains" of the RSI). -/
def posDeltaSum (closes : List ℚ) : ℚ :=
  ((closes.zip closes.tail).map (fun p => max (p.2 - p.1) 0)).sum

/-- The magnitudes of the non-positive close-to-close deltas, summed
(the "losses" of the RSI). -/
def negDeltaSum (closes : List ℚ) : ℚ :=
  ((closes.zip closes.tail).map (fun p => max (p.1 - p.2) 0)).sum

/-- Fifteen bars with strictly increasing closes `1..15`: the spec's
all-gains example. -/
def rsiBars15 : List Bar :=
  [⟨0, 0, 1, 0, 0⟩, ⟨0, 0, 2, 0, 0⟩, ⟨0, 0, 3, 0, 0⟩, ⟨0, 0, 4, 0, 0⟩,
   ⟨0, 0, 5, 0, 0⟩, ⟨0, 0, 6, 0, 0⟩, ⟨0, 0, 7, 0, 0⟩, ⟨0, 0, 8, 0, 0⟩,
   ⟨0, 0, 9, 0, 0⟩, ⟨0, 0, 10, 0, 0⟩, ⟨0, 0, 11, 0, 0⟩, ⟨0, 0, 12, 0, 0⟩,
   ⟨0, 0, 13, 0, 0⟩, ⟨0, 0, 14, 0, 0⟩, ⟨0, 0, 15, 0, 0⟩]

/-- An upstream world with no data at all. -/
def emptyEnv : Env := fun _ => ⟨none, none, []⟩


/-- A 100-entry cache for exercising eviction: the oldest entry `"a"` is
fresh (expiry 200), the second entry `"b"` is already expired (expiry 0),
and 98 fresh filler entries follow, all keys distinct. -/
def c3cache : Cache Nat :=
  ("a", ⟨0, 200⟩) :: ("b", ⟨0, 0⟩) ::
    (List.range 98).map (fun i => (String.mk [Char.ofNat (200 + i)], ⟨0, 200⟩))

/-- An upstream world whose snapshot carries a negative intraday close
(a legal JSON number) and nothing else. -/
def negSnapEnv : Env := fun _ => ⟨some ⟨some (-5), none⟩, none, []⟩

/-- The code units of `"AAPL"`. -/
def aaplStr : JSStr := [65, 65, 80, 76]

/-- The code units of `"MSFT"`. -/
def msftStr : JSStr := [77, 83, 70, 84]

/-- The code units of `"BADTICKER!!"`. -/
def badTickerStr : JSStr := [66, 65, 68, 84, 73, 67, 75, 69, 82, 33, 33]

/-- An upstream world with snapshot data for AAPL and MSFT only. -/
def exampleEnv : Env := fun t =>
  if t = aaplStr then ⟨some ⟨some 150, none⟩, none, []⟩
  else if t = msftStr then ⟨some ⟨some 300, none⟩, none, []⟩
  else ⟨none, none, []⟩

/-- An upstream world with two historical bars (closes 3 and 4) for every
symbol, and no snapshot or details. -/
def barsEnv : Env := fun _ => ⟨none, none, [⟨1, 2, 3, 4, 5⟩, ⟨2, 3, 4, 5, 6⟩]⟩

/-- The quote `getAssetQuote` produces for `"AAPL"` against `barsEnv`. -/
def q10 : AssetQuote := (getAssetQuote aaplStr barsEnv 0 0).get (by decide)

/-- Eleven upstream search items, one more than the requested `limit=10`. -/
def elevenItems : List SearchItem :=
  (List.range 11).map (fun i => ⟨[65 + i], none, none, none⟩)

/-- An upstream search response carrying the eleven items. -/
def elevenData : SearchData := ⟨some elevenItems⟩

/-! ## Helper lemmas -/

lemma foldl_add_close (l : List Bar) (init : ℚ) :
    l.foldl (fun acc bar => acc + bar.c) init = init + (l.map Bar.c).sum := by
  induction l generalizing init with
  | nil => simp
  | cons b t ih => simp [ih]; ring

lemma gainLossAux_eq (cs : List ℚ) :
    gainLossAux cs = (posDeltaSum cs, negDeltaSum cs) := by
  induction cs with
  | nil => simp [gainLossAux, posDeltaSum, negDeltaSum]
  | cons c1 t ih =>
    cases t with
    | nil => simp [gainLossAux, posDeltaSum, negDeltaSum]
    | cons c2 rest =>
      simp only [gainLossAux, ih, posDeltaSum, negDeltaSum, List.tail_cons, List.zip_cons_cons,
        List.map_cons, List.sum_cons]
      by_cases h : c2 - c1 > 0
      · rw [if_pos h, max_eq_left (by linarith), max_eq_right (by linarith), Prod.mk.injEq]
        constructor <;> ring
      · rw [if_neg h, max_eq_right (by linarith), max_eq_left (by linarith),
          abs_of_nonpos (by linarith), Prod.mk.injEq]
        constructor <;> ring

lemma posDeltaSum_nonneg (cs : List ℚ) : 0 ≤ posDeltaSum cs := by
  unfold posDeltaSum
  apply List.sum_nonneg
  intro x hx
  simp only [List.mem_map] at hx
  obtain ⟨p, _, rfl⟩ := hx
  exact le_max_right _ _

lemma negDeltaSum_nonneg (cs : List ℚ) : 0 ≤ negDeltaSum cs := by
  unfold negDeltaSum
  apply List.sum_nonneg
  intro x hx
  simp only [List.mem_map] at hx
  obtain ⟨p, _, rfl⟩ := hx
  exact le_max_right _ _

/-! ## C4: simple moving average -/

/-- C4: `calculateSMA bars period` (for a meaningful period `0 < period`;
"the mean of the most recent 0 bars" is not defined by the claim) is
absent exactly when fewer than `period` bars exist, and otherwise equals
the arithmetic mean of the closing prices of the most recent `period`
bars. -/
theorem C4_sma (bars : List Bar) (period : Nat) (hp : 0 < period) :
    (calculateSMA bars period = none ↔ bars.length < period) ∧
    (period ≤ bars.length →
      calculateSMA bars period =
        some (((bars.drop (bars.length - period)).map Bar.c).sum / period)) := by
  constructor
  · unfold calculateSMA
    split
    · simp_all
    · simp_all
  · intro h
    unfold calculateSMA
    rw [if_neg (by omega)]
    simp only [sliceLast, if_neg (Nat.pos_iff_ne_zero.mp hp)]
    rw [foldl_add_close, zero_add]

/-- Witness for C4 at the spec's own example: closes `[10, 20, 30]` give
`SMA(3) = 20`. -/
theorem C4_sma_witness :
    calculateSMA [⟨0, 0, 10, 0, 0⟩, ⟨0, 0, 20, 0, 0⟩, ⟨0, 0, 30, 0, 0⟩] 3 =
      some (((([⟨0, 0, 10, 0, 0⟩, ⟨0, 0, 20, 0, 0⟩, ⟨0, 0, 30, 0, 0⟩] :
        List Bar).drop 0).map Bar.c).sum / 3) ∧
    calculateSMA [⟨0, 0, 10, 0, 0⟩, ⟨0, 0, 20, 0, 0⟩, ⟨0, 0, 30, 0, 0⟩] 3 = some 20 :=
  ⟨(C4_sma _ 3 (by norm_num)).2 (by norm_num),
   by norm_num [calculateSMA, sliceLast]⟩

/-! ## C5: relative strength index -/

/-- C5: `calculateRSI` at the default period 14 is absent exactly when
fewer than 15 bars exist; any defined value lies in `[0, 100]`; and when
defined it equals `100 - 100/(1 + avgGain/avgLoss)` over the most recent
14 close-to-close transitions, with value `100` when the average loss is
zero. -/
theorem C5_rsi (bars : List Bar) :
    (calculateRSI bars 14 = none ↔ bars.length < 15) ∧
    (∀ r, calculateRSI bars 14 = some r → 0 ≤ r ∧ r ≤ 100) ∧
    (15 ≤ bars.length →
      calculateRSI bars 14 =
        some (if negDeltaSum ((bars.drop (bars.length - 15)).map Bar.c) / 14 = 0 then 100
          else 100 - 100 / (1 +
            (posDeltaSum ((bars.drop (bars.length - 15)).map Bar.c) / 14) /
            (negDeltaSum ((bars.drop (bars.length - 15)).map Bar.c) / 14)))) := by
  refine ⟨?_, ?_, ?_⟩
  · simp only [calculateRSI]
    split
    · simp_all
    · split <;> simp_all
  · intro r hr
    simp only [calculateRSI] at hr
    split at hr
    · exact absurd hr (by simp)
    · rw [gainLossAux_eq] at hr
      set cs := ((sliceLast bars (14 + 1)).map Bar.c) with hcs
      have hG : 0 ≤ posDeltaSum cs / 14 := div_nonneg (posDeltaSum_nonneg cs) (by norm_num)
      have hL : 0 ≤ negDeltaSum cs / 14 := div_nonneg (negDeltaSum_nonneg cs) (by norm_num)
      split at hr
      · cases hr; norm_num
      · rename_i hL0
        have hLpos : 0 < negDeltaSum cs / 14 := lt_of_le_of_ne hL (Ne.symm hL0)
        have hrs : 0 ≤ (posDeltaSum cs / 14) / (negDeltaSum cs / 14) := div_nonneg hG hL
        have h1 : (0 : ℚ) < 1 + (posDeltaSum cs / 14) / (negDeltaSum cs / 14) := by linarith
        have h2 : (100 : ℚ) / (1 + (posDeltaSum cs / 14) / (negDeltaSum cs / 14)) ≤ 100 :=
          div_le_self (by norm_num) (by linarith)
        have h3 : (0 : ℚ) < 100 / (1 + (posDeltaSum cs / 14) / (negDeltaSum cs / 14)) :=
          div_pos (by norm_num) h1
        cases hr
        constructor <;> linarith
  · intro h
    simp only [calculateRSI]
    rw [if_neg (by omega)]
    simp only [sliceLast, if_neg (by norm_num : (14 + 1 : Nat) ≠ 0)]
    rw [gainLossAux_eq]
    have : bars.length - (14 + 1) = bars.length - 15 := by omega
    rw [this]
    split_ifs <;> simp_all

/-- Witness for C5 at the spec's example: 15 strictly increasing closes
give `RSI = 100`, and the bound `[0, 100]` holds there. -/
theorem C5_rsi_witness :
    calculateRSI rsiBars15 14 = some 100 ∧ (0 ≤ (100 : ℚ) ∧ (100 : ℚ) ≤ 100) :=
  ⟨by norm_num [calculateRSI, sliceLast, gainLossAux, rsiBars15],
   (C5_rsi rsiBars15).2.1 100
     (by norm_num [calculateRSI, sliceLast, gainLossAux, rsiBars15])⟩

/-! ## C6: percent change -/

/-- C6: `calculatePercentChange` returns exactly 0 on a zero baseline and
otherwise `(current - previous) / previous * 100`; over the rational
model of JSON numbers (which has no `NaN`/`Infinity`) it is total. -/
theorem C6_percent_change (current previous : ℚ) :
    calculatePercentChange current 0 = 0 ∧
    (previous ≠ 0 →
      calculatePercentChange current previous = (current - previous) / previous * 100) := by
  refine ⟨by simp [calculatePercentChange], fun h => ?_⟩
  simp [calculatePercentChange, h]

/-- Witness for C6 at concrete inputs. -/
theorem C6_percent_change_witness :
    calculatePercentChange 6 4 = (6 - 4) / 4 * 100 :=
  (C6_percent_change 6 4).2 (by norm_num)

/-! ## C7: ticker sanitization -/

lemma jsToUpperChar_allowed {n : Nat} (h : isAllowedTickerChar n = true) :
    isAllowedTickerChar (jsToUpperChar n) = true := by
  simp only [isAllowedTickerChar, jsToUpperChar, Bool.or_eq_true, decide_eq_true_eq] at h ⊢
  split_ifs <;> omega

lemma jsToUpperChar_idem {n : Nat} (h : isAllowedTickerChar n = true) :
    jsToUpperChar (jsToUpperChar n) = jsToUpperChar n := by
  simp only [isAllowedTickerChar, Bool.or_eq_true, decide_eq_true_eq] at h
  simp only [jsToUpperChar]
  split_ifs <;> omega

lemma mem_sanitizeTicker_allowed {s : JSStr} {x : Nat} (hx : x ∈ sanitizeTicker s) :
    ∃ y, isAllowedTickerChar y = true ∧ x = jsToUpperChar y := by
  simp only [sanitizeTicker, List.mem_map] at hx
  obtain ⟨y, hy, rfl⟩ := hx
  exact ⟨y, List.of_mem_filter (List.mem_of_mem_take hy), rfl⟩

/-- C7: `sanitizeTicker` is idempotent; `"aapl!!"` sanitizes to `"AAPL"`;
and a string of only disallowed characters (vacuously including `""`)
sanitizes to the empty string, in which case `getAssetQuote` returns
`none` whatever the upstream responses are (no fetch can influence it). -/
theorem C7_sanitize (s : JSStr) :
    sanitizeTicker (sanitizeTicker s) = sanitizeTicker s ∧
    sanitizeTicker [97, 97, 112, 108, 33, 33] = [65, 65, 80, 76] ∧
    ((∀ c ∈ s, isAllowedTickerChar c = false) →
      sanitizeTicker s = [] ∧
      ∀ (env : Env) (ytdStartMs oneMonthAgoMs : ℤ),
        getAssetQuote s env ytdStartMs oneMonthAgoMs = none) := by
  refine ⟨?_, by decide, fun hall => ?_⟩
  · have hfix : ∀ x ∈ sanitizeTicker s, isAllowedTickerChar x = true ∧ jsToUpperChar x = x := by
      intro x hx
      obtain ⟨y, hy, rfl⟩ := mem_sanitizeTicker_allowed hx
      exact ⟨jsToUpperChar_allowed hy, jsToUpperChar_idem hy⟩
    set t := sanitizeTicker s with ht
    have hlen : t.length ≤ 20 := by
      rw [ht]
      unfold sanitizeTicker
      rw [List.length_map]
      exact List.length_take_le 20 _
    have h1 : t.filter isAllowedTickerChar = t :=
      List.filter_eq_self.mpr (fun x hx => (hfix x hx).1)
    show sanitizeTicker t = t
    unfold sanitizeTicker
    rw [h1, List.take_of_length_le hlen]
    have : ∀ x ∈ t, jsToUpperChar x = x := fun x hx => (hfix x hx).2
    calc t.map jsToUpperChar = t.map id := List.map_congr_left this
    _ = t := List.map_id t
  · have hempty : sanitizeTicker s = [] := by
      unfold sanitizeTicker
      rw [List.filter_eq_nil_iff.mpr (by intro a ha; simp [hall a ha])]
      rfl
    refine ⟨hempty, fun env y m => ?_⟩
    simp [getAssetQuote, hempty]

/-- Witness for C7 at `"!!"`: it sanitizes to the empty string and the
lookup is rejected with no fetch consulted. -/
theorem C7_sanitize_witness :
    sanitizeTicker [33, 33] = [] ∧ getAssetQuote [33, 33] emptyEnv 0 0 = none :=
  ⟨((C7_sanitize [33, 33]).2.2 (by decide)).1,
   ((C7_sanitize [33, 33]).2.2 (by decide)).2 emptyEnv 0 0⟩

/-! ## Cache lemmas -/

lemma evictScan_sublist {α : Type} (need : Nat) (now : ℤ)
    (l : List (String × CacheEntry α)) :
    ∀ acc : List String, List.Sublist (evictScan need now acc l) (acc ++ l.map Prod.fst) := by
  induction l with
  | nil => intro acc; simp [evictScan]
  | cons kv rest ih =>
    intro acc
    simp only [evictScan, List.map_cons]
    split
    · have h := ih (acc ++ [kv.1])
      have he : (acc ++ [kv.1]) ++ rest.map Prod.fst = acc ++ kv.1 :: rest.map Prod.fst := by
        simp
      rw [he] at h
      exact h
    · exact (ih acc).trans ((List.sublist_cons_self kv.1 (rest.map Prod.fst)).append_left acc)

lemma evictScan_length_mono {α : Type} (need : Nat) (now : ℤ)
    (l : List (String × CacheEntry α)) :
    ∀ acc : List String, acc.length ≤ (evictScan need now acc l).length := by
  induction l with
  | nil => intro acc; simp [evictScan]
  | cons kv rest ih =>
    intro acc
    simp only [evictScan]
    split
    · exact le_trans (by simp) (ih (acc ++ [kv.1]))
    · exact ih acc

lemma evictScan_length_ge {α : Type} (need : Nat) (now : ℤ)
    (l : List (String × CacheEntry α)) :
    ∀ acc : List String,
      min need (acc.length + l.length) ≤ (evictScan need now acc l).length := by
  induction l with
  | nil => intro acc; simpa [evictScan] using min_le_right need acc.length
  | cons kv rest ih =>
    intro acc
    simp only [evictScan, List.length_cons]
    split
    · have h := ih (acc ++ [kv.1])
      simp only [List.length_append, List.length_singleton] at h
      have he : acc.length + 1 + rest.length = acc.length + (rest.length + 1) := by omega
      rw [he] at h
      exact h
    · rename_i hcond
      have hge : need ≤ acc.length := by
        rcases not_or.mp hcond with ⟨_, h2⟩
        omega
      exact le_trans (by omega) (evictScan_length_mono need now rest acc)

lemma evictScan_mem_acc {α : Type} (need : Nat) (now : ℤ)
    (l : List (String × CacheEntry α)) :
    ∀ acc : List String, ∀ x ∈ acc, x ∈ evictScan need now acc l := by
  induction l with
  | nil => intro acc x hx; simpa [evictScan] using hx
  | cons kv rest ih =>
    intro acc x hx
    simp only [evictScan]
    split
    · exact ih _ x (List.mem_append_left _ hx)
    · exact ih _ x hx

lemma evictScan_mem_expired {α : Type} (need : Nat) (now : ℤ)
    (l : List (String × CacheEntry α)) :
    ∀ acc : List String, ∀ kv ∈ l, kv.2.expiry < now → kv.1 ∈ evictScan need now acc l := by
  induction l with
  | nil => intro _ kv h; simp at h
  | cons kv0 rest ih =>
    intro acc kv hkv hexp
    rcases List.mem_cons.mp hkv with rfl | hmem
    · simp only [evictScan, if_pos (Or.inl hexp)]
      exact evictScan_mem_acc need now rest _ kv.1 (by simp)
    · simp only [evictScan]
      split
      · exact ih _ kv hmem hexp
      · exact ih _ kv hmem hexp

lemma evictScan_length_le {α : Type} (need : Nat) (now : ℤ)
    (l : List (String × CacheEntry α)) :
    ∀ acc : List String,
      (evictScan need now acc l).length ≤
        max need acc.length + l.countP (fun kv => decide (kv.2.expiry < now)) := by
  induction l with
  | nil =>
    intro acc
    simp only [evictScan, List.countP_nil]
    omega
  | cons kv rest ih =>
    intro acc
    simp only [evictScan, List.countP_cons]
    by_cases hx : kv.2.expiry < now
    · rw [if_pos (Or.inl hx)]
      have h := ih (acc ++ [kv.1])
      simp only [List.length_append, List.length_singleton] at h
      have hdec : (if decide (kv.2.expiry < now) = true then 1 else 0) = 1 := by simp [hx]
      omega
    · by_cases hlt : acc.length < need
      · rw [if_pos (Or.inr hlt)]
        have h := ih (acc ++ [kv.1])
        simp only [List.length_append, List.length_singleton] at h
        have hdec : (if decide (kv.2.expiry < now) = true then 1 else 0) = 0 := by simp [hx]
        omega
      · rw [if_neg (by tauto)]
        have h := ih acc
        have hdec : (if decide (kv.2.expiry < now) = true then 1 else 0) = 0 := by simp [hx]
        omega

lemma mapSet_length_le {α : Type} (c : Cache α) (k : String) (e : CacheEntry α) :
    (mapSet c k e).length ≤ c.length + 1 := by
  induction c with
  | nil => simp [mapSet]
  | cons kv rest ih =>
    simp only [mapSet]
    split
    · simp
    · simpa using Nat.succ_le_succ ih

lemma mem_keys_mapSet {α : Type} {c : Cache α} {k : String} {e : CacheEntry α} {x : String} :
    x ∈ (mapSet c k e).map Prod.fst → x ∈ c.map Prod.fst ∨ x = k := by
  induction c with
  | nil =>
    intro h
    simp [mapSet] at h
    exact Or.inr h
  | cons kv rest ih =>
    intro h
    simp only [mapSet] at h
    split at h
    · simp only [List.map_cons, List.mem_cons] at h ⊢
      tauto
    · simp only [List.map_cons, List.mem_cons] at h ⊢
      rcases h with h | h
      · exact Or.inl (Or.inl h)
      · rcases ih h with h' | h'
        · exact Or.inl (Or.inr h')
        · exact Or.inr h'

lemma mapSet_nodup {α : Type} {c : Cache α} {k : String} {e : CacheEntry α}
    (h : (c.map Prod.fst).Nodup) : ((mapSet c k e).map Prod.fst).Nodup := by
  induction c with
  | nil => simp [mapSet]
  | cons kv rest ih =>
    simp only [List.map_cons, List.nodup_cons] at h
    simp only [mapSet]
    split
    · rename_i hk
      simp only [List.map_cons, List.nodup_cons]
      exact ⟨by rw [← hk]; exact h.1, h.2⟩
    · rename_i hk
      simp only [List.map_cons, List.nodup_cons]
      refine ⟨fun hmem => ?_, ih h.2⟩
      rcases mem_keys_mapSet hmem with h' | h'
      · exact h.1 h'
      · exact hk h'

lemma length_countP_not {α : Type} (p : α → Bool) (l : List α) :
    l.length = l.countP p + l.countP (fun a => !p a) := by
  induction l with
  | nil => simp
  | cons a t ih =>
    simp only [List.countP_cons, List.length_cons, ih]
    cases p a <;> simp <;> omega

lemma countP_split {α : Type} (p q : α → Bool) (l : List α) :
    l.countP p = l.countP (fun a => p a && q a) + l.countP (fun a => p a && !q a) := by
  induction l with
  | nil => simp
  | cons a t ih =>
    simp only [List.countP_cons, ih]
    cases hp : p a <;> cases hq : q a <;> simp [hp, hq] <;> omega

lemma length_le_countP_keys {ks keys : List String} (hnd : ks.Nodup)
    (hsub : ∀ x ∈ ks, x ∈ keys) :
    ks.length ≤ keys.countP (fun x => decide (x ∈ ks)) := by
  rw [List.countP_eq_length_filter]
  have h1 : ks ⊆ keys.filter (fun x => decide (x ∈ ks)) := fun x hx =>
    List.mem_filter.mpr ⟨hsub x hx, by simpa using hx⟩
  exact (hnd.subperm h1).length_le

lemma countP_keys_le_length {ks keys : List String} (hnd : keys.Nodup) :
    keys.countP (fun x => decide (x ∈ ks)) ≤ ks.length := by
  rw [List.countP_eq_length_filter]
  have h1 : (keys.filter (fun x => decide (x ∈ ks))).Nodup := hnd.filter _
  have h2 : keys.filter (fun x => decide (x ∈ ks)) ⊆ ks := fun x hx => by
    have := (List.mem_filter.mp hx).2
    simpa using this
  exact (h1.subperm h2).length_le

lemma countP_mem_fst {α : Type} (c : Cache α) (ks : List String) :
    c.countP (fun kv => decide (kv.1 ∈ ks)) =
      (c.map Prod.fst).countP (fun x => decide (x ∈ ks)) := by
  rw [List.countP_map]
  rfl

lemma evictKeys_length_ge {α : Type} (c : Cache α) (now : ℤ)
    (hc : MAX_CACHE_SIZE ≤ c.length) :
    c.length - MAX_CACHE_SIZE + 1 ≤ (evictKeys c now).length := by
  have h := evictScan_length_ge (c.length - MAX_CACHE_SIZE + 1) now c []
  simp only [List.length_nil, Nat.zero_add] at h
  unfold evictKeys
  have h100 : MAX_CACHE_SIZE = 100 := rfl
  have hmin : min (c.length - MAX_CACHE_SIZE + 1) c.length = c.length - MAX_CACHE_SIZE + 1 := by
    omega
  rw [hmin] at h
  exact h

lemma evictKeys_sublist {α : Type} (c : Cache α) (now : ℤ) :
    List.Sublist (evictKeys c now) (c.map Prod.fst) := by
  have h := evictScan_sublist (c.length - MAX_CACHE_SIZE + 1) now c []
  simpa [evictKeys] using h

lemma setCache_length_le {α : Type} (c : Cache α) (k : String) (d : α) (now : ℤ)
    (h : (c.map Prod.fst).Nodup) :
    (setCache c k d now).length ≤ MAX_CACHE_SIZE := by
  have h100 : MAX_CACHE_SIZE = 100 := rfl
  simp only [setCache]
  by_cases hc : MAX_CACHE_SIZE ≤ c.length
  · rw [if_pos hc]
    have hrge := evictKeys_length_ge c now hc
    have hsubl := evictKeys_sublist c now
    have hndks : (evictKeys c now).Nodup := hsubl.nodup h
    have hcnt : (evictKeys c now).length ≤
        (c.map Prod.fst).countP (fun x => decide (x ∈ evictKeys c now)) :=
      length_le_countP_keys hndks (fun x hx => hsubl.subset hx)
    have hsplit := length_countP_not
      (fun kv : String × CacheEntry α => decide (kv.1 ∈ evictKeys c now)) c
    have hbr := countP_mem_fst c (evictKeys c now)
    have hfl : (c.filter (fun kv => !decide (kv.1 ∈ evictKeys c now))).length
        = c.countP (fun kv => !decide (kv.1 ∈ evictKeys c now)) :=
      (List.countP_eq_length_filter _ _).symm
    have hm := mapSet_length_le (c.filter (fun kv => !decide (kv.1 ∈ evictKeys c now)))
      k ⟨d, now + CACHE_TTL⟩
    omega
  · rw [if_neg hc]
    have hm := mapSet_length_le c k ⟨d, now + CACHE_TTL⟩
    omega

lemma setCache_nodup {α : Type} (c : Cache α) (k : String) (d : α) (now : ℤ)
    (h : (c.map Prod.fst).Nodup) :
    ((setCache c k d now).map Prod.fst).Nodup := by
  simp only [setCache]
  apply mapSet_nodup
  split
  · exact ((List.filter_sublist c).map Prod.fst).nodup h
  · exact h

lemma runPuts_inv {α : Type} (ops : List (PutOp α)) :
    ∀ c : Cache α, (c.map Prod.fst).Nodup → c.length ≤ MAX_CACHE_SIZE →
      ((runPuts c ops).map Prod.fst).Nodup ∧ (runPuts c ops).length ≤ MAX_CACHE_SIZE := by
  induction ops with
  | nil => intro c h1 h2; exact ⟨h1, h2⟩
  | cons op rest ih =>
    intro c h1 _
    simp only [runPuts, List.foldl_cons]
    exact ih (setCache c op.key op.data op.now) (setCache_nodup _ _ _ _ h1)
      (setCache_length_le _ _ _ _ h1)

/-! ## C2: cache occupancy bound -/

/-- C2: replaying any sequence of `setCache` calls (arbitrary keys, data
and wall-clock times) from the empty cache never leaves more than
`MAX_CACHE_SIZE = 100` entries: at capacity, enough keys are collected and
deleted before the new entry is inserted. -/
theorem C2_cache_bound {α : Type} (ops : List (PutOp α)) :
    (runPuts ([] : Cache α) ops).length ≤ MAX_CACHE_SIZE :=
  (runPuts_inv ops [] (by simp) (by simp [MAX_CACHE_SIZE])).2

/-! ## C3: eviction preference -/

/-- C3 (amended): when `setCache` runs at or above capacity, every
already-expired entry is marked for eviction, and at most
`size - MAX_CACHE_SIZE + 1` non-expired entries are marked; but the
non-expired victims are taken from the front of the insertion order
unconditionally, so a non-expired entry can be evicted even when the
expired entries alone would free enough space (see the counterexample). -/
theorem C3_eviction {α : Type} (c : Cache α) (now : ℤ)
    (hnd : (c.map Prod.fst).Nodup) (hc : MAX_CACHE_SIZE ≤ c.length) :
    (∀ kv ∈ c, kv.2.expiry < now → kv.1 ∈ evictKeys c now) ∧
    c.countP (fun kv => decide (kv.1 ∈ evictKeys c now) && !decide (kv.2.expiry < now)) ≤
      c.length - MAX_CACHE_SIZE + 1 := by
  constructor
  · intro kv hkv hexp
    exact evictScan_mem_expired _ now c [] kv hkv hexp
  · have hsubl := evictKeys_sublist c now
    have hsplit := countP_split
      (fun kv : String × CacheEntry α => decide (kv.1 ∈ evictKeys c now))
      (fun kv : String × CacheEntry α => decide (kv.2.expiry < now)) c
    have hA : c.countP (fun kv => decide (kv.1 ∈ evictKeys c now)) ≤
        (evictKeys c now).length := by
      rw [countP_mem_fst]
      exact countP_keys_le_length hnd
    have hK : (evictKeys c now).length ≤
        (c.length - MAX_CACHE_SIZE + 1) +
          c.countP (fun kv => decide (kv.2.expiry < now)) := by
      have h := evictScan_length_le (c.length - MAX_CACHE_SIZE + 1) now c []
      simp only [List.length_nil, Nat.max_zero] at h
      exact h
    have hD : c.countP (fun kv => decide (kv.2.expiry < now)) ≤
        c.countP (fun kv =>
          decide (kv.1 ∈ evictKeys c now) && decide (kv.2.expiry < now)) := by
      apply List.countP_mono_left
      intro kv hkv hx
      have hexp : kv.2.expiry < now := of_decide_eq_true hx
      have hmem : kv.1 ∈ evictKeys c now := evictScan_mem_expired _ now c [] kv hkv hexp
      simp [hmem, hexp]
    omega

set_option maxRecDepth 4000 in
/-- Counterexample to C3 as stated: in `c3cache` (100 entries, at
capacity) the single expired entry `"b"` would alone free the one slot
needed, yet the non-expired oldest entry `"a"` is evicted by `setCache`
as well. -/
theorem C3_counterexample :
    MAX_CACHE_SIZE ≤ c3cache.length ∧
    c3cache.countP (fun kv => decide (kv.2.expiry < 100)) =
      c3cache.length - MAX_CACHE_SIZE + 1 ∧
    ("a", (⟨0, 200⟩ : CacheEntry Nat)) ∈ c3cache ∧ ¬((200 : ℤ) < 100) ∧
    "a" ∉ (setCache c3cache "n" 0 100).map Prod.fst := by
  refine ⟨by decide, by decide, by decide, by decide, by decide⟩

set_option maxRecDepth 4000 in
/-- Witness for C3 (amended) at `c3cache`. -/
theorem C3_eviction_witness :
    c3cache.countP
      (fun kv => decide (kv.1 ∈ evictKeys c3cache 100) && !decide (kv.2.expiry < 100)) ≤
      c3cache.length - MAX_CACHE_SIZE + 1 :=
  (C3_eviction c3cache 100 (by decide) (by decide)).2

/-! ## C1: price resolution -/

lemma truthyNum_some {o : Option ℚ} (h : truthyNum o = true) :
    o = some (o.getD 0) ∧ o.getD 0 ≠ 0 := by
  cases o with
  | none => simp [truthyNum] at h
  | some q =>
    simp only [truthyNum, decide_eq_true_eq] at h
    exact ⟨rfl, by simpa using h⟩

/-- C1 (amended): every quote `getAssetQuote` returns carries a nonzero
price, resolved as the first JS-truthy (present and nonzero) candidate
among the snapshot's intraday close, the snapshot's previous-day close
and the last historical bar's close; and when no candidate resolves to a
nonzero number the result is `none`. The claim's "positive finite" must
be weakened to "nonzero": a negative close passes the `currentPrice === 0`
guard and is returned as-is (see the counterexample); non-finite prices
cannot arise because decoded JSON numbers are finite. -/
theorem C1_price (ticker : JSStr) (env : Env) (ytdStartMs oneMonthAgoMs : ℤ) :
    (∀ q, getAssetQuote ticker env ytdStartMs oneMonthAgoMs = some q →
      q.price ≠ 0 ∧
      ((truthyNum ((env (massiveTickerOf (sanitizeTicker ticker))).snapshot.bind
          Snapshot.day_c) = true ∧
        (env (massiveTickerOf (sanitizeTicker ticker))).snapshot.bind Snapshot.day_c =
          some q.price) ∨
       (truthyNum ((env (massiveTickerOf (sanitizeTicker ticker))).snapshot.bind
          Snapshot.day_c) = false ∧
        truthyNum ((env (massiveTickerOf (sanitizeTicker ticker))).snapshot.bind
          Snapshot.prevDay_c) = true ∧
        (env (massiveTickerOf (sanitizeTicker ticker))).snapshot.bind Snapshot.prevDay_c =
          some q.price) ∨
       (truthyNum ((env (massiveTickerOf (sanitizeTicker ticker))).snapshot.bind
          Snapshot.day_c) = false ∧
        truthyNum ((env (massiveTickerOf (sanitizeTicker ticker))).snapshot.bind
          Snapshot.prevDay_c) = false ∧
        ((env (massiveTickerOf (sanitizeTicker ticker))).historicalBars.getLast?).map
          Bar.c = some q.price))) ∧
    (truthyNum ((env (massiveTickerOf (sanitizeTicker ticker))).snapshot.bind
        Snapshot.day_c) = false →
      truthyNum ((env (massiveTickerOf (sanitizeTicker ticker))).snapshot.bind
        Snapshot.prevDay_c) = false →
      (((env (massiveTickerOf (sanitizeTicker ticker))).historicalBars.getLast?).map
        Bar.c).getD 0 = 0 →
      getAssetQuote ticker env ytdStartMs oneMonthAgoMs = none) := by
  constructor
  · intro q hq
    simp only [getAssetQuote] at hq
    by_cases h0 : sanitizeTicker ticker = []
    · rw [if_pos h0] at hq
      exact absurd hq (by simp)
    · rw [if_neg h0] at hq
      by_cases h1 : (env (massiveTickerOf (sanitizeTicker ticker))).snapshot = none ∧
          (env (massiveTickerOf (sanitizeTicker ticker))).details = none ∧
          (env (massiveTickerOf (sanitizeTicker ticker))).historicalBars = []
      · rw [if_pos h1] at hq
        exact absurd hq (by simp)
      · rw [if_neg h1] at hq
        by_cases hd : truthyNum ((env (massiveTickerOf (sanitizeTicker ticker))).snapshot.bind
            Snapshot.day_c) = true
        · simp only [hd, if_true] at hq
          obtain ⟨hds, hdn⟩ := truthyNum_some hd
          rw [if_neg hdn] at hq
          injection hq with hq
          subst hq
          exact ⟨hdn, Or.inl ⟨hd, hds⟩⟩
        · rw [Bool.not_eq_true] at hd
          simp only [hd, Bool.false_eq_true, if_false] at hq
          by_cases hp : truthyNum ((env (massiveTickerOf
              (sanitizeTicker ticker))).snapshot.bind Snapshot.prevDay_c) = true
          · simp only [hp, if_true] at hq
            obtain ⟨hps, hpn⟩ := truthyNum_some hp
            rw [if_neg hpn] at hq
            injection hq with hq
            subst hq
            exact ⟨hpn, Or.inr (Or.inl ⟨hd, hp, hps⟩)⟩
          · rw [Bool.not_eq_true] at hp
            simp only [hp, Bool.false_eq_true, if_false] at hq
            rcases hgl : (env (massiveTickerOf
                (sanitizeTicker ticker))).historicalBars.getLast? with _ | b
            · rw [hgl] at hq
              simp at hq
            · rw [hgl] at hq
              by_cases hbz : b.c = 0
              · rw [if_pos hbz] at hq
                exact absurd hq (by simp)
              · rw [if_neg hbz] at hq
                injection hq with hq
                subst hq
                exact ⟨hbz, Or.inr (Or.inr ⟨hd, hp, rfl⟩)⟩
  · intro hd hp hl
    simp only [getAssetQuote]
    by_cases h0 : sanitizeTicker ticker = []
    · rw [if_pos h0]
    · rw [if_neg h0]
      by_cases h1 : (env (massiveTickerOf (sanitizeTicker ticker))).snapshot = none ∧
          (env (massiveTickerOf (sanitizeTicker ticker))).details = none ∧
          (env (massiveTickerOf (sanitizeTicker ticker))).historicalBars = []
      · rw [if_pos h1]
      · rw [if_neg h1]
        simp only [hd, hp, Bool.false_eq_true, if_false]
        rcases hgl : (env (massiveTickerOf
            (sanitizeTicker ticker))).historicalBars.getLast? with _ | b
        · simp
        · rw [hgl] at hl
          simp only [Option.map_some', Option.getD_some] at hl
          rw [if_pos hl]

/-- Counterexample to C1 as stated: with an upstream snapshot whose
intraday close is `-5` (a legal JSON number) and no other data, no
candidate resolves to a positive number, yet `getAssetQuote` returns a
quote carrying the negative price rather than `none`. -/
theorem C1_counterexample :
    (getAssetQuote aaplStr negSnapEnv 0 0).map AssetQuote.price = some (-5) := by
  decide

/-- Witness for C1 (amended): with no upstream data at all, no candidate
is truthy and the lookup yields `none`. -/
theorem C1_price_witness :
    getAssetQuote aaplStr emptyEnv 0 0 = none :=
  (C1_price aaplStr emptyEnv 0 0).2 (by decide) (by decide) (by decide)

/-! ## C8: batch lookups -/

/-- C8: `getMultipleAssetQuotes` is exactly the per-ticker lookups with
the `null` results dropped, preserving input order; being a total
function of its inputs, a failing ticker cannot raise an error for the
batch. On the spec's example batch (against an upstream that only knows
AAPL and MSFT), only those two quotes come back, in order. -/
theorem C8_batch :
    (∀ (tickers : List JSStr) (env : Env) (ytdStartMs oneMonthAgoMs : ℤ),
      getMultipleAssetQuotes tickers env ytdStartMs oneMonthAgoMs =
        tickers.filterMap (fun t => getAssetQuote t env ytdStartMs oneMonthAgoMs)) ∧
    (getMultipleAssetQuotes [aaplStr, badTickerStr, msftStr] exampleEnv 0 0).map
      AssetQuote.ticker = [aaplStr, msftStr] := by
  constructor
  · intro tickers env y m
    unfold getMultipleAssetQuotes
    rw [List.filterMap_map]
    rfl
  · decide

/-! ## C10: historicalPrices window -/

/-- C10: the `historicalPrices` field of any returned quote lists, in
chronological order, the closes of the most recent `min 50 n` of the `n`
fetched historical bars; in particular its length never exceeds 50. -/
theorem C10_historical (ticker : JSStr) (env : Env) (ytdStartMs oneMonthAgoMs : ℤ)
    (q : AssetQuote) (hq : getAssetQuote ticker env ytdStartMs oneMonthAgoMs = some q) :
    q.historicalPrices =
      ((env (massiveTickerOf (sanitizeTicker ticker))).historicalBars.drop
        ((env (massiveTickerOf (sanitizeTicker ticker))).historicalBars.length - 50)).map
        Bar.c ∧
    q.historicalPrices.length =
      min 50 (env (massiveTickerOf (sanitizeTicker ticker))).historicalBars.length ∧
    q.historicalPrices.length ≤ 50 := by
  have key : q.historicalPrices =
      ((env (massiveTickerOf (sanitizeTicker ticker))).historicalBars.drop
        ((env (massiveTickerOf (sanitizeTicker ticker))).historicalBars.length - 50)).map
        Bar.c := by
    simp only [getAssetQuote] at hq
    by_cases h0 : sanitizeTicker ticker = []
    · rw [if_pos h0] at hq
      exact absurd hq (by simp)
    · rw [if_neg h0] at hq
      by_cases h1 : (env (massiveTickerOf (sanitizeTicker ticker))).snapshot = none ∧
          (env (massiveTickerOf (sanitizeTicker ticker))).details = none ∧
          (env (massiveTickerOf (sanitizeTicker ticker))).historicalBars = []
      · rw [if_pos h1] at hq
        exact absurd hq (by simp)
      · rw [if_neg h1] at hq
        by_cases hd : truthyNum ((env (massiveTickerOf
            (sanitizeTicker ticker))).snapshot.bind Snapshot.day_c) = true
        · simp only [hd, if_true] at hq
          split at hq
          · exact absurd hq (by simp)
          · injection hq with hq
            subst hq
            simp [sliceLast]
        · rw [Bool.not_eq_true] at hd
          simp only [hd, Bool.false_eq_true, if_false] at hq
          by_cases hp : truthyNum ((env (massiveTickerOf
              (sanitizeTicker ticker))).snapshot.bind Snapshot.prevDay_c) = true
          · simp only [hp, if_true] at hq
            split at hq
            · exact absurd hq (by simp)
            · injection hq with hq
              subst hq
              simp [sliceLast]
          · rw [Bool.not_eq_true] at hp
            simp only [hp, Bool.false_eq_true, if_false] at hq
            rcases hgl : (env (massiveTickerOf
                (sanitizeTicker ticker))).historicalBars.getLast? with _ | b
            · rw [hgl] at hq
              simp at hq
            · rw [hgl] at hq
              split at hq
              · exact absurd hq (by simp)
              · injection hq with hq
                subst hq
                simp [sliceLast]
  refine ⟨key, ?_, ?_⟩
  · rw [key, List.length_map, List.length_drop]
    omega
  · rw [key, List.length_map, List.length_drop]
    omega

/-- Witness for C10: against `barsEnv` (two bars, closes 3 and 4) the
AAPL quote's `historicalPrices` is `[3, 4]`, of length `min 50 2 = 2`. -/
theorem C10_historical_witness :
    q10.historicalPrices =
      ((barsEnv (massiveTickerOf (sanitizeTicker aaplStr))).historicalBars.drop
        ((barsEnv (massiveTickerOf (sanitizeTicker aaplStr))).historicalBars.length - 50)).map
        Bar.c ∧
    q10.historicalPrices.length =
      min 50 (barsEnv (massiveTickerOf (sanitizeTicker aaplStr))).historicalBars.length ∧
    q10.historicalPrices.length ≤ 50 :=
  C10_historical aaplStr barsEnv 0 0 q10 (Option.some_get _).symm

/-! ## C9: ticker search -/

lemma sanitizeSearchQuery_length_le (q : JSStr) : (sanitizeSearchQuery q).length ≤ 50 := by
  unfold sanitizeSearchQuery jsTrim
  rw [List.length_reverse]
  calc ((((q.filter isSearchChar).take 50).dropWhile
        isJsWhitespace).reverse.dropWhile isJsWhitespace).length
      ≤ (((q.filter isSearchChar).take 50).dropWhile isJsWhitespace).reverse.length :=
        (List.dropWhile_sublist _).length_le
    _ = (((q.filter isSearchChar).take 50).dropWhile isJsWhitespace).length :=
        List.length_reverse _
    _ ≤ ((q.filter isSearchChar).take 50).length := (List.dropWhile_sublist _).length_le
    _ ≤ 50 := List.length_take_le _ _

/-- C9 (amended): `searchAssets` sanitizes the query (keeping only
alphanumeric, whitespace, dot and hyphen characters, truncating to 50 and
trimming), returns the empty list when the sanitized query is empty or
the upstream call fails or carries no `results`, and is a total function
of its inputs (never an error to the caller); the request it issues
carries `limit=10` and a sanitized 1-50 character query, but the response
items are returned unfiltered, so the result has exactly as many entries
as the upstream response — not capped at 10 (see the counterexample). -/
theorem C9_search (query : JSStr) (upstream : Option SearchData) :
    (sanitizeSearchQuery query = [] → searchAssets query upstream = []) ∧
    (searchAssets query none = []) ∧
    (∀ d, upstream = some d → d.results = none → searchAssets query upstream = []) ∧
    (∀ d rs, upstream = some d → d.results = some rs → sanitizeSearchQuery query ≠ [] →
      (searchAssets query upstream).length = rs.length) ∧
    (∀ r, searchRequest query = some r →
      r.limit = 10 ∧ r.search ≠ [] ∧ r.search.length ≤ 50) := by
  refine ⟨fun h => by simp [searchAssets, h], ?_, ?_, ?_, ?_⟩
  · by_cases h : sanitizeSearchQuery query = [] <;> simp [searchAssets, h]
  · intro d hd hres
    subst hd
    by_cases h : sanitizeSearchQuery query = [] <;> simp [searchAssets, h, hres]
  · intro d rs hd hres hne
    subst hd
    simp [searchAssets, hne, hres]
  · intro r hr
    simp only [searchRequest] at hr
    by_cases h : sanitizeSearchQuery query = []
    · rw [if_pos h] at hr
      exact absurd hr (by simp)
    · rw [if_neg h] at hr
      injection hr with hr
      subst hr
      exact ⟨rfl, h, sanitizeSearchQuery_length_le query⟩

/-- Counterexample to C9 as stated: an upstream response carrying 11
items (a vendor ignoring the requested `limit=10`) is returned whole —
the "at most 10 results" bound is not enforced by the code. -/
theorem C9_counterexample :
    10 < (searchAssets [65] (some elevenData)).length := by decide

/-- Witness for C9 (amended) at query `"A"` and the 11-item upstream
response. -/
theorem C9_search_witness :
    (searchAssets [65] (some elevenData)).length = elevenItems.length ∧
    ((10 : Nat) = 10 ∧ ([65] : JSStr) ≠ [] ∧ ([65] : JSStr).length ≤ 50) :=
  ⟨(C9_search [65] (some elevenData)).2.2.2.1 elevenData elevenItems rfl rfl (by decide),
   (C9_search [65] (some elevenData)).2.2.2.2 ⟨[65], true, 10⟩ (by decide)⟩

end MassiveApi
